import Mathlib

/-!
Verification of the employee-attrition training script
(`training_script_amina.py`).

Modelling conventions:
* A pandas DataFrame of raw monthly records is a `List Record`; its rows keep
  the order of the frame.
* Dates (the columns `MMM-YY`, `Dateofjoining`, `LastWorkingDate`) are integer
  day numbers; a null date (pandas `NaT`) is `none`.
* Numeric columns (`Salary`, `Total Business Value`) and the derived ratio
  features are exact rationals.  A float division whose divisor is zero gives a
  non-finite value (NaN or inf) in the source; such a result is modelled as
  `none`.
* The remote fetches of the script are out of scope; the externally retrieved
  test-ID list is an explicit argument.
-/

unseal Rat.add Rat.mul Rat.inv Rat.sub

/-- One raw monthly record: one row of the loaded table, with the six columns
the script reads (`Emp_ID`, `MMM-YY`, `Dateofjoining`, `LastWorkingDate`,
`Salary`, `Total Business Value`). -/
@[ext] structure Record where
  emp_id : Int
  mmm_yy : Int
  doj : Int
  lwd : Option Int
  salary : ℚ
  tbv : ℚ
deriving DecidableEq

/-- A raw table is its list of rows. -/
abbrev Table := List Record

/-- The comparison `df[LastWorkingDate] >= end_date` of line 83 on one value:
a pandas comparison against a null date (`NaT`) is false. -/
def lwdGe (l : Option Int) (e : Int) : Bool :=
  match l with
  | some d => decide (e ≤ d)
  | none => false

/-- Line 83 on one row: `np.where` replaces a `LastWorkingDate` at or after the
cutoff with `NaT`; every other field is kept. -/
def censorRow (e : Int) (r : Record) : Record :=
  if lwdGe r.lwd e then ⟨r.emp_id, r.mmm_yy, r.doj, none, r.salary, r.tbv⟩ else r

/-- `filter_data` (lines 81 to 84): keep the rows with `MMM-YY <= end_date`
and `Dateofjoining < end_date`, then censor `LastWorkingDate` at or after the
cutoff in the copy. -/
def filter_data (df : Table) (e : Int) : Table :=
  (df.filter (fun r => decide (r.mmm_yy ≤ e) && decide (r.doj < e))).map (censorRow e)

/-- Helper for `uniqueFirst`: the elements of the list not yet in `seen`,
first occurrences in order. -/
def uniqueFirstFrom (seen : List Int) : List Int → List Int
  | [] => []
  | a :: t => if a ∈ seen then uniqueFirstFrom seen t else a :: uniqueFirstFrom (a :: seen) t

/-- `Series.unique()` (line 46): the distinct values in order of first
appearance. -/
def uniqueFirst (l : List Int) : List Int := uniqueFirstFrom [] l

/-- `df[MMM-YY].max()` (line 47).  The script only evaluates it on non-empty
tables; the default for an empty table is arbitrary. -/
def maxDate (df : Table) : Int :=
  match df.map (·.mmm_yy) with
  | [] => 0
  | a :: t => t.foldl max a

/-- `employee_df[Salary].min()` (line 57). -/
def minSalary (edf : Table) : ℚ :=
  match edf.map (·.salary) with
  | [] => 0
  | a :: t => t.foldl min a

/-- `employee_df[Salary].max()` (line 56). -/
def maxSalary (edf : Table) : ℚ :=
  match edf.map (·.salary) with
  | [] => 0
  | a :: t => t.foldl max a

/-- Line 61: `employee_df.tail(1)[LastWorkingDate].iloc[-1]`, the last visible
record of the employee, or null for an empty group (unreachable in the
script). -/
def lastLwd (edf : Table) : Option Int :=
  match edf.getLast? with
  | some r => r.lwd
  | none => none

/-- Line 70: `employee_df[employee_df[Emp_ID] == id][Dateofjoining].iloc[0]`. -/
def firstJoin (i : Int) (edf : Table) : Int :=
  match (edf.filter (fun r => r.emp_id == i)).head? with
  | some r => r.doj
  | none => 0

/-- Line 49: `df[df[Emp_ID] == i]`, the group of one employee. -/
def empRecords (df : Table) (i : Int) : Table :=
  df.filter (fun r => r.emp_id == i)

/-- `np.timedelta64(1, 'M')` measured in days: numpy converts one average
month to 2629746 seconds, and a day is 86400 seconds. -/
def monthLen : ℚ := 2629746 / 86400

/-- `math.ceil` on an exact rational. -/
def ceilQ (q : ℚ) : Int := -(Rat.floor (-q))

/-- One aggregated employee feature row (lines 52 to 76).  The fields keep the
insertion order of the source dictionary: `Emp_ID`, `Salary Change`,
`Total Business Value All`, `Overvalue`, `Work Experience`, `Fired`. -/
structure EmpFeatures where
  emp_id : Int
  salaryChange : Option ℚ
  tbvAll : ℚ
  overvalue : Option ℚ
  workExperience : Int
  fired : Bool
deriving DecidableEq

/-- Lines 52 to 76 for one employee group `edf`, with `maxd` the `max_date` of
line 47.
* `Salary Change` (lines 56 to 57): `(max - min) / min` of `Salary`; a zero
  minimum makes the float division non-finite, modelled `none`.
* `Total Business Value All` (line 58): the sum.
* `Overvalue` (line 59): the mean of the row-wise ratios; a zero salary in the
  group makes it non-finite, modelled `none`.
* `Work Experience` (lines 61 to 74): `ceil((last_working_day - join_date) /
  np.timedelta64(1, 'M'))`, where `last_working_day` falls back to `maxd` when
  the last visible `LastWorkingDate` is null.
* `Fired` (line 76): not all `LastWorkingDate` of the group are null. -/
def empRow (maxd : Int) (i : Int) (edf : Table) : EmpFeatures :=
  ⟨i,
   if minSalary edf = 0 then none
     else some ((maxSalary edf - minSalary edf) / minSalary edf),
   (edf.map (·.tbv)).sum,
   if edf.any (fun r => r.salary == 0) then none
     else some ((edf.map (fun r => r.tbv / r.salary)).sum / (edf.length : ℚ)),
   ceilQ ((((match lastLwd edf with | none => maxd | some d => d) - firstJoin i edf : Int) : ℚ) / monthLen),
   !(edf.all (fun r => r.lwd.isNone))⟩

/-- `generate_emp_samples` (lines 45 to 78): one feature row per distinct
`Emp_ID` of the input, in order of first appearance.  `max_date` (line 47) is
the maximum `MMM-YY` of the table given to this function. -/
def generate_emp_samples (df : Table) : List EmpFeatures :=
  (uniqueFirst (df.map (·.emp_id))).map (fun i => empRow (maxDate df) i (empRecords df i))

/-- Modelled from the spec: the aggregator of spec section 4.4, whose input is
a possibly filtered raw table "plus the global maximum `MMM-YY` across the
full unfiltered dataset" as the explicit fallback reference date.  It differs
from `generate_emp_samples` only in where the reference date comes from. -/
def generate_emp_samples_ref (refMax : Int) (df : Table) : List EmpFeatures :=
  (uniqueFirst (df.map (·.emp_id))).map (fun i => empRow refMax i (empRecords df i))

/-- `split_train_test_emps` (lines 38 to 42), with the remotely fetched
test-ID list as an explicit argument: rows whose `Emp_ID` is not in the list,
then rows whose `Emp_ID` is in the list. -/
def split_train_test_emps (df : Table) (ids : List Int) : Table × Table :=
  (df.filter (fun r => !(decide (r.emp_id ∈ ids))),
   df.filter (fun r => decide (r.emp_id ∈ ids)))

/-- Lines 101 and 105: `sorted(full_train_data[MMM-YY].unique())[9:]`, the
cutoff dates the training loop iterates over. -/
def loopDates (full : Table) : List Int :=
  (List.insertionSort (· ≤ ·) (uniqueFirst (full.map (·.mmm_yy)))).drop 9

/-- Lines 107 to 108: the aggregated table `emp_df` of one training-loop
iteration at cutoff `date`. -/
def trainIterEmp (full : Table) (date : Int) : List EmpFeatures :=
  generate_emp_samples (filter_data full date)

/-- The columns of the aggregated table, in insertion order (lines 55 to 76). -/
def empCols : List String :=
  ["Emp_ID", "Salary Change", "Total Business Value All", "Overvalue",
   "Work Experience", "Fired"]

/-- `DataFrame.drop(c, axis=1)` at the schema level. -/
def dropCol (c : String) (cols : List String) : List String :=
  cols.filter (fun x => !(x == c))

/-- Line 110: `X = emp_df.drop(Fired, axis=1)`.  This binding of `X` is
overwritten on the next line and never used. -/
def xColsLine110 : List String := dropCol "Fired" empCols

/-- Line 111: `X = emp_df.drop(Emp_ID, axis=1)` drops again from `emp_df`,
not from the previous `X`, so these are the columns of the matrix passed to
`clf.fit` on line 115 (via the split of line 113). -/
def fitFeatureCols : List String := dropCol "Emp_ID" empCols

/-- Line 147: `test_df.drop(Fired, axis=1)`, the columns of the matrix passed
to the final `clf.predict`; `test_df` carries the aggregated table columns. -/
def predictFeatureCols : List String := dropCol "Fired" empCols

/-- A heap of tables: pandas frames are heap objects, and an operation that
writes a column mutates one entry while selection and `.copy()` allocate new
entries. -/
abbrev Heap := List Table

/-- The call `filter_data(df, end_date)` as a heap operation on the table at
`ref`: line 82 reads that table, and the boolean selection with `.copy()`
allocates a fresh table; the column assignment of line 83 writes only the
fresh table.  The result is the heap after the call and the reference of the
returned table. -/
def filter_data_call (h : Heap) (ref : Nat) (e : Int) : Heap × Nat :=
  (h ++ [filter_data (h.getD ref []) e], h.length)

/-- A concrete training table: one employee, eleven monthly records 31 days
apart, never departed.  Its training loop runs at cutoffs 279 and 310. -/
def exFull : Table :=
  [⟨1, 0, 0, none, 1, 0⟩, ⟨1, 31, 0, none, 1, 0⟩, ⟨1, 62, 0, none, 1, 0⟩,
   ⟨1, 93, 0, none, 1, 0⟩, ⟨1, 124, 0, none, 1, 0⟩, ⟨1, 155, 0, none, 1, 0⟩,
   ⟨1, 186, 0, none, 1, 0⟩, ⟨1, 217, 0, none, 1, 0⟩, ⟨1, 248, 0, none, 1, 0⟩,
   ⟨1, 279, 0, none, 1, 0⟩, ⟨1, 310, 0, none, 1, 0⟩]

/-- A concrete table whose one employee has a single record with salary zero. -/
def dfZeroSalary : Table := [⟨3, 0, 0, none, 0, 0⟩]

/-- A concrete table whose one employee departed on day 3. -/
def dfFiredOne : Table := [⟨7, 0, 0, some 3, 1, 0⟩]

/-- A concrete table whose one employee has a single record with salary 5. -/
def dfSalaryFive : Table := [⟨4, 0, 0, none, 5, 7⟩]

/-- A concrete one-table heap. -/
def heapEx : Heap := [[⟨1, 0, 0, none, 1, 0⟩]]

/-! ## Helper lemmas -/

theorem mem_uniqueFirstFrom {a : Int} :
    ∀ (seen l : List Int), a ∈ uniqueFirstFrom seen l ↔ a ∈ l ∧ a ∉ seen := by
  intro seen l
  induction l generalizing seen with
  | nil => simp [uniqueFirstFrom]
  | cons b t ih =>
    by_cases hb : b ∈ seen
    · rw [uniqueFirstFrom, if_pos hb, ih]
      constructor
      · rintro ⟨h1, h2⟩
        exact ⟨List.mem_cons_of_mem b h1, h2⟩
      · rintro ⟨h1, h2⟩
        rcases List.mem_cons.mp h1 with rfl | h1
        · exact absurd hb h2
        · exact ⟨h1, h2⟩
    · rw [uniqueFirstFrom, if_neg hb]
      simp only [List.mem_cons, ih]
      constructor
      · rintro (rfl | ⟨h1, h2⟩)
        · exact ⟨Or.inl rfl, hb⟩
        · exact ⟨Or.inr h1, fun hs => h2 (Or.inr hs)⟩
      · rintro ⟨rfl | h1, h2⟩
        · exact Or.inl rfl
        · by_cases hab : a = b
          · exact Or.inl hab
          · refine Or.inr ⟨h1, fun hs => ?_⟩
            rcases hs with h | h
            · exact hab h
            · exact h2 h

theorem mem_uniqueFirst {a : Int} {l : List Int} : a ∈ uniqueFirst l ↔ a ∈ l := by
  rw [uniqueFirst, mem_uniqueFirstFrom]
  simp

theorem nodup_uniqueFirstFrom :
    ∀ (seen l : List Int), (uniqueFirstFrom seen l).Nodup := by
  intro seen l
  induction l generalizing seen with
  | nil => simp [uniqueFirstFrom]
  | cons b t ih =>
    by_cases hb : b ∈ seen
    · rw [uniqueFirstFrom, if_pos hb]
      exact ih seen
    · rw [uniqueFirstFrom, if_neg hb]
      refine List.nodup_cons.mpr ⟨fun hmem => ?_, ih (b :: seen)⟩
      exact ((mem_uniqueFirstFrom (b :: seen) t).mp hmem).2 (List.mem_cons_self b seen)

theorem nodup_uniqueFirst (l : List Int) : (uniqueFirst l).Nodup :=
  nodup_uniqueFirstFrom [] l

theorem mem_generate_emp_samples {df : Table} {f : EmpFeatures}
    (h : f ∈ generate_emp_samples df) :
    f = empRow (maxDate df) f.emp_id (empRecords df f.emp_id) := by
  rcases List.mem_map.mp h with ⟨i, _, rfl⟩
  rfl

/-! ## C1 and C3: the feature matrix of the training loop -/

/-- C1: the claim says the matrix fitted in the loop has both `Emp_ID` and
`Fired` removed.  Evaluating the code: line 111 overwrites the binding of
line 110, dropping only `Emp_ID` from `emp_df`, so the fitted matrix keeps
the `Fired` column and is not the both-columns-dropped matrix the claim
describes. -/
theorem fit_matrix_keeps_fired :
    fitFeatureCols =
      ["Salary Change", "Total Business Value All", "Overvalue",
       "Work Experience", "Fired"] ∧
    "Fired" ∈ fitFeatureCols ∧
    fitFeatureCols ≠ dropCol "Emp_ID" xColsLine110 := by
  decide

/-- C3: the claim says the fitted columns equal the columns of the final
prediction input.  Evaluating the code: the fitted matrix keeps `Fired` and
drops `Emp_ID`, the prediction matrix keeps `Emp_ID` and drops `Fired`, so
the two column sets differ. -/
theorem fit_predict_cols_differ :
    fitFeatureCols ≠ predictFeatureCols ∧
    "Fired" ∈ fitFeatureCols ∧ "Fired" ∉ predictFeatureCols ∧
    "Emp_ID" ∈ predictFeatureCols ∧ "Emp_ID" ∉ fitFeatureCols := by
  decide

/-! ## C2: the Work Experience reference date of the training loop -/

/-- C2 counterexample: at the first cutoff (day 279) of the training loop over
`exFull`, the one active employee gets Work Experience 10, computed from the
filtered subset maximum `MMM-YY` (279); computing it from the global maximum
(310), as the claim states, would give 11. -/
theorem trainIter_ref_counterexample :
    279 ∈ loopDates exFull ∧
    (trainIterEmp exFull 279).map (·.workExperience) = [10] ∧
    (generate_emp_samples_ref (maxDate exFull) (filter_data exFull 279)).map
      (·.workExperience) = [11] ∧
    trainIterEmp exFull 279 ≠
      generate_emp_samples_ref (maxDate exFull) (filter_data exFull 279) := by
  decide


theorem empRow_emp_id (maxd i : Int) (edf : Table) : (empRow maxd i edf).emp_id = i := rfl

theorem empRow_fired (maxd i : Int) (edf : Table) :
    (empRow maxd i edf).fired = !(edf.all (fun r => r.lwd.isNone)) := rfl

theorem empRow_salaryChange (maxd i : Int) (edf : Table) :
    (empRow maxd i edf).salaryChange =
      if minSalary edf = 0 then none
      else some ((maxSalary edf - minSalary edf) / minSalary edf) := rfl

theorem empRow_workExperience_of_null (maxd i : Int) (edf : Table)
    (h : lastLwd edf = none) :
    (empRow maxd i edf).workExperience =
      ceilQ (((maxd - firstJoin i edf : Int) : ℚ) / monthLen) := by
  show ceilQ ((((match lastLwd edf with | none => maxd | some d => d) -
    firstJoin i edf : Int) : ℚ) / monthLen) = _
  rw [h]

/-- C2 (amended): in every training-loop iteration, for every employee whose
last visible `LastWorkingDate` is null, Work Experience is computed with the
maximum `MMM-YY` of the cutoff-filtered subset passed to aggregation as the
reference date. -/
theorem trainIter_workexp_filtered_max (full : Table) (date : Int)
    (f : EmpFeatures) (hf : f ∈ trainIterEmp full date)
    (hnull : lastLwd (empRecords (filter_data full date) f.emp_id) = none) :
    f.workExperience =
      ceilQ (((maxDate (filter_data full date) -
        firstJoin f.emp_id (empRecords (filter_data full date) f.emp_id) : Int) : ℚ) /
          monthLen) := by
  rcases List.mem_map.mp hf with ⟨i, hi, rfl⟩
  rw [empRow_emp_id] at hnull ⊢
  exact empRow_workExperience_of_null _ _ _ hnull

/-- C2 witness: the amended statement at the concrete loop iteration of
`exFull` at cutoff 279. -/
theorem trainIter_workexp_filtered_max_witness :
    (⟨1, some 0, 0, some 0, 10, false⟩ : EmpFeatures) ∈ trainIterEmp exFull 279 ∧
    lastLwd (empRecords (filter_data exFull 279) 1) = none ∧
    (⟨1, some 0, 0, some 0, 10, false⟩ : EmpFeatures).workExperience =
      ceilQ (((maxDate (filter_data exFull 279) -
        firstJoin 1 (empRecords (filter_data exFull 279) 1) : Int) : ℚ) / monthLen) :=
  ⟨by decide, by decide,
   trainIter_workexp_filtered_max exFull 279 ⟨1, some 0, 0, some 0, 10, false⟩
     (by decide) (by decide)⟩

/-! ## C5: the derived Fired label -/

/-- C5: for every employee row the aggregator produces, `Fired` is true if and
only if at least one of the records of that employee in the input table has a
non-null `LastWorkingDate` (line 76). -/
theorem fired_iff_some_lwd (df : Table) (f : EmpFeatures)
    (hf : f ∈ generate_emp_samples df) :
    f.fired = true ↔ ∃ r ∈ df, r.emp_id = f.emp_id ∧ r.lwd ≠ none := by
  rcases List.mem_map.mp hf with ⟨i, hi, rfl⟩
  rw [empRow_emp_id, empRow_fired, Bool.not_eq_true', List.all_eq_false]
  constructor
  · rintro ⟨r, hr, hrn⟩
    obtain ⟨hr1, hr2⟩ := List.mem_filter.mp hr
    exact ⟨r, hr1, by simpa using hr2,
      by simpa [Option.isNone_iff_eq_none] using hrn⟩
  · rintro ⟨r, hr, hrid, hlwd⟩
    refine ⟨r, List.mem_filter.mpr ⟨hr, by simpa using hrid⟩, ?_⟩
    simpa [Option.isNone_iff_eq_none] using hlwd

/-- C5 witness: the label at a concrete table whose one employee has a
non-null departure date. -/
theorem fired_iff_some_lwd_witness :
    (⟨7, some 0, 0, some 0, 1, true⟩ : EmpFeatures) ∈ generate_emp_samples dfFiredOne ∧
    ((⟨7, some 0, 0, some 0, 1, true⟩ : EmpFeatures).fired = true ↔
      ∃ r ∈ dfFiredOne, r.emp_id = (⟨7, some 0, 0, some 0, 1, true⟩ : EmpFeatures).emp_id ∧
        r.lwd ≠ none) :=
  ⟨by decide,
   fired_iff_some_lwd dfFiredOne ⟨7, some 0, 0, some 0, 1, true⟩ (by decide)⟩

/-! ## C7: the Salary Change feature -/

/-- C7 counterexample: an employee with exactly one visible record whose
salary is zero gets a non-finite Salary Change (the float division by zero of
line 57, modelled `none`), not the zero the claim states. -/
theorem salary_change_zero_counterexample :
    (empRecords dfZeroSalary 3).length = 1 ∧
    (generate_emp_samples dfZeroSalary).map (·.salaryChange) = [none] ∧
    (generate_emp_samples dfZeroSalary).map (·.salaryChange) ≠ [some 0] := by
  decide

/-- C7 (amended): for every employee row the aggregator produces, when the
minimum salary of the employee group is non-zero the Salary Change is
`(max - min) / min` over the visible records, and an employee with exactly
one visible record of non-zero salary gets Salary Change zero. -/
theorem salary_change_formula (df : Table) (f : EmpFeatures)
    (hf : f ∈ generate_emp_samples df) :
    (minSalary (empRecords df f.emp_id) ≠ 0 →
      f.salaryChange = some ((maxSalary (empRecords df f.emp_id) -
        minSalary (empRecords df f.emp_id)) / minSalary (empRecords df f.emp_id))) ∧
    (∀ r : Record, empRecords df f.emp_id = [r] → r.salary ≠ 0 →
      f.salaryChange = some 0) := by
  rcases List.mem_map.mp hf with ⟨i, hi, rfl⟩
  rw [empRow_emp_id]
  constructor
  · intro hmn
    rw [empRow_salaryChange, if_neg hmn]
  · intro r hr hs
    have hmin : minSalary (empRecords df i) = r.salary := by rw [hr]; rfl
    have hmax : maxSalary (empRecords df i) = r.salary := by rw [hr]; rfl
    rw [empRow_salaryChange, hmin, hmax, if_neg hs, sub_self, zero_div]

/-- C7 witness: the amended statement at a concrete one-record table with
salary 5. -/
theorem salary_change_formula_witness :
    (⟨4, some 0, 7, some (7 / 5), 0, false⟩ : EmpFeatures) ∈ generate_emp_samples dfSalaryFive ∧
    minSalary (empRecords dfSalaryFive 4) ≠ 0 ∧
    (⟨4, some 0, 7, some (7 / 5), 0, false⟩ : EmpFeatures).salaryChange =
      some ((maxSalary (empRecords dfSalaryFive 4) - minSalary (empRecords dfSalaryFive 4)) /
        minSalary (empRecords dfSalaryFive 4)) ∧
    empRecords dfSalaryFive 4 = [⟨4, 0, 0, none, 5, 7⟩] ∧
    (⟨4, some 0, 7, some (7 / 5), 0, false⟩ : EmpFeatures).salaryChange = some 0 :=
  ⟨by decide, by decide,
   (salary_change_formula dfSalaryFive ⟨4, some 0, 7, some (7 / 5), 0, false⟩
     (by decide)).1 (by decide),
   by decide,
   (salary_change_formula dfSalaryFive ⟨4, some 0, 7, some (7 / 5), 0, false⟩
     (by decide)).2 ⟨4, 0, 0, none, 5, 7⟩ (by decide) (by decide)⟩

/-! ## C4 and C8: the window filter -/

theorem censorRow_emp_id (e : Int) (r : Record) : (censorRow e r).emp_id = r.emp_id := by
  unfold censorRow
  split <;> rfl

theorem censorRow_mmm_yy (e : Int) (r : Record) : (censorRow e r).mmm_yy = r.mmm_yy := by
  unfold censorRow
  split <;> rfl

theorem censorRow_doj (e : Int) (r : Record) : (censorRow e r).doj = r.doj := by
  unfold censorRow
  split <;> rfl

theorem censorRow_salary (e : Int) (r : Record) : (censorRow e r).salary = r.salary := by
  unfold censorRow
  split <;> rfl

theorem censorRow_tbv (e : Int) (r : Record) : (censorRow e r).tbv = r.tbv := by
  unfold censorRow
  split <;> rfl

theorem censorRow_lwd (e : Int) (r : Record) :
    (censorRow e r).lwd = r.lwd.bind (fun d => if e ≤ d then none else some d) := by
  cases h : r.lwd with
  | none => simp [censorRow, lwdGe, h]
  | some d =>
    by_cases hd : e ≤ d
    · simp [censorRow, lwdGe, h, hd]
    · simp [censorRow, lwdGe, h, hd]

theorem censorRow_idem (e : Int) (r : Record) :
    censorRow e (censorRow e r) = censorRow e r := by
  cases h : r.lwd with
  | none => simp [censorRow, lwdGe, h]
  | some d =>
    by_cases hd : e ≤ d
    · simp [censorRow, lwdGe, h, hd]
    · simp [censorRow, lwdGe, h, hd]

/-- C4: a row is in the output of `filter_data` exactly when it comes from an
input row with `MMM-YY` at or before the cutoff and `Dateofjoining` before the
cutoff, every field except `LastWorkingDate` unchanged, and `LastWorkingDate`
nulled exactly when the original value is at or after the cutoff. -/
theorem filter_data_row_characterization (df : Table) (e : Int) (r : Record) :
    r ∈ filter_data df e ↔
      ∃ r0 ∈ df, r0.mmm_yy ≤ e ∧ r0.doj < e ∧
        r.emp_id = r0.emp_id ∧ r.mmm_yy = r0.mmm_yy ∧ r.doj = r0.doj ∧
        r.salary = r0.salary ∧ r.tbv = r0.tbv ∧
        r.lwd = r0.lwd.bind (fun d => if e ≤ d then none else some d) := by
  rw [filter_data, List.mem_map]
  constructor
  · rintro ⟨a, ha, rfl⟩
    obtain ⟨hmem, hcond⟩ := List.mem_filter.mp ha
    rw [Bool.and_eq_true, decide_eq_true_eq, decide_eq_true_eq] at hcond
    exact ⟨a, hmem, hcond.1, hcond.2, censorRow_emp_id e a, censorRow_mmm_yy e a,
      censorRow_doj e a, censorRow_salary e a, censorRow_tbv e a, censorRow_lwd e a⟩
  · rintro ⟨r0, h0, hm, hd, he1, he2, he3, he4, he5, he6⟩
    refine ⟨r0, List.mem_filter.mpr ⟨h0, ?_⟩, ?_⟩
    · rw [Bool.and_eq_true, decide_eq_true_eq, decide_eq_true_eq]
      exact ⟨hm, hd⟩
    · apply Record.ext
      · rw [censorRow_emp_id, he1]
      · rw [censorRow_mmm_yy, he2]
      · rw [censorRow_doj, he3]
      · rw [censorRow_lwd, he6]
      · rw [censorRow_salary, he4]
      · rw [censorRow_tbv, he5]

/-- C8: filtering an already-filtered table at the same cutoff yields the same
table. -/
theorem filter_data_idempotent (df : Table) (e : Int) :
    filter_data (filter_data df e) e = filter_data df e := by
  simp only [filter_data]
  rw [List.filter_map, List.map_map]
  have h1 : ∀ a ∈ df.filter (fun r => decide (r.mmm_yy ≤ e) && decide (r.doj < e)),
      ((fun r : Record => decide (r.mmm_yy ≤ e) && decide (r.doj < e)) ∘ censorRow e) a =
        (fun r : Record => decide (r.mmm_yy ≤ e) && decide (r.doj < e)) a := by
    intro a _
    show (decide ((censorRow e a).mmm_yy ≤ e) && decide ((censorRow e a).doj < e)) = _
    rw [censorRow_mmm_yy, censorRow_doj]
  rw [List.filter_congr h1,
    List.filter_eq_self.mpr (fun a ha => (List.mem_filter.mp ha).2)]
  exact List.map_congr_left (fun a _ => censorRow_idem e a)

/-! ## C6: one aggregated row per distinct employee -/

/-- C6: the aggregator produces exactly one output row per distinct `Emp_ID`
present in the input (and none for an absent identifier), with the row
carrying that `Emp_ID` unchanged. -/
theorem one_row_per_emp_id (df : Table) (i : Int) :
    (generate_emp_samples df).countP (fun f => f.emp_id == i) =
      if i ∈ df.map (·.emp_id) then 1 else 0 := by
  rw [generate_emp_samples, List.countP_map]
  have hcomp : ((fun f : EmpFeatures => f.emp_id == i) ∘
      (fun j => empRow (maxDate df) j (empRecords df j))) = fun j : Int => j == i := rfl
  rw [hcomp]
  have hcount : (uniqueFirst (df.map (·.emp_id))).countP (fun j : Int => j == i) =
      (uniqueFirst (df.map (·.emp_id))).count i := rfl
  rw [hcount]
  by_cases h : i ∈ df.map (·.emp_id)
  · rw [if_pos h]
    exact List.count_eq_one_of_mem (nodup_uniqueFirst _) (mem_uniqueFirst.mpr h)
  · rw [if_neg h]
    exact List.count_eq_zero_of_not_mem (fun hc => h (mem_uniqueFirst.mp hc))

/-! ## C9: the train/test split -/

/-- C9: the splitter puts a row in the train part exactly when its `Emp_ID` is
absent from the test-ID list and in the test part exactly when it is present,
the two parts share no row, and together they are a permutation of the
input. -/
theorem split_partition (df : Table) (ids : List Int) :
    (∀ r : Record, r ∈ (split_train_test_emps df ids).1 ↔ r ∈ df ∧ r.emp_id ∉ ids) ∧
    (∀ r : Record, r ∈ (split_train_test_emps df ids).2 ↔ r ∈ df ∧ r.emp_id ∈ ids) ∧
    (split_train_test_emps df ids).1 ∩ (split_train_test_emps df ids).2 = [] ∧
    List.Perm ((split_train_test_emps df ids).1 ++ (split_train_test_emps df ids).2) df := by
  refine ⟨?_, ?_, ?_, ?_⟩
  · intro r
    simp [split_train_test_emps, List.mem_filter]
  · intro r
    simp [split_train_test_emps, List.mem_filter]
  · rw [List.eq_nil_iff_forall_not_mem]
    intro r hr
    rw [List.mem_inter_iff] at hr
    obtain ⟨h1, h2⟩ := hr
    simp [split_train_test_emps, List.mem_filter] at h1 h2
    exact h1.2 h2.2
  · exact List.Perm.trans List.perm_append_comm
      (List.filter_append_perm (fun r : Record => decide (r.emp_id ∈ ids)) df)

/-! ## C10: filter_data does not mutate its input -/

/-- C10: the heap-level call of `filter_data` leaves every table that existed
before the call unchanged, and the returned reference holds the filtered
copy. -/
theorem filter_data_preserves_tables (h : Heap) (ref : Nat) (e : Int) (j : Nat)
    (hj : j < h.length) :
    ((filter_data_call h ref e).1).getD j [] = h.getD j [] ∧
    ((filter_data_call h ref e).1).getD (filter_data_call h ref e).2 [] =
      filter_data (h.getD ref []) e := by
  constructor
  · show (h ++ [filter_data (h.getD ref []) e]).getD j [] = h.getD j []
    simp only [List.getD_eq_getElem?_getD]
    rw [List.getElem?_append, if_pos hj]
  · show (h ++ [filter_data (h.getD ref []) e]).getD h.length [] =
      filter_data (h.getD ref []) e
    rw [List.getD_eq_getElem?_getD, List.getElem?_append, if_neg (lt_irrefl _)]
    simp

/-- C10 witness: the frame property at a concrete one-table heap. -/
theorem filter_data_preserves_tables_witness :
    (0 : Nat) < heapEx.length ∧
    ((filter_data_call heapEx 0 5).1).getD 0 [] = heapEx.getD 0 [] ∧
    ((filter_data_call heapEx 0 5).1).getD (filter_data_call heapEx 0 5).2 [] =
      filter_data (heapEx.getD 0 []) 5 :=
  ⟨by decide, (filter_data_preserves_tables heapEx 0 5 0 (by decide)).1,
   (filter_data_preserves_tables heapEx 0 5 0 (by decide)).2⟩
